import Mathlib

/-!
Verification of the youtube-focus content relevance decision engine.

This file gives a shallow embedding of the repository's core functions:

* `src/content.js` (first iteration): `normalizeString`, `extractWords`,
  `parseUserGoal`, `applyIntentOverride`, `hasPositiveKeywordMatch`,
  `evaluateVideo`, the tag-and-hide element state
  (`isElementProcessed`, `hideVideoElement`, `showVideoElement`,
  `resetVideoElement`) and the per-element branch of `filterVideos`.
* `src/content.js` (second iteration): the timeout/response race of
  `processVideo` as an explicit event step function.
* `src/background.js` (second iteration): the `classify` message handler.
* the popup script: `sanitizeInput`.

JavaScript strings are modelled as Lean `String` (a wrapper around
`List Char`); JavaScript `Set` objects are modelled as `Finset String`;
values that may fail a `typeof x !== 'string'` check are modelled by `JSVal`.
Character classes of the JavaScript regexes are modelled over the ASCII
range handled by `Char.toLower`.
-/

/-- A JavaScript value reaching a function that type-checks its input:
either a string or some non-string value (`undefined`, `null`, a number, ...).
Every non-string value is rejected the same way by the code, so one
constructor suffices. -/
inductive JSVal where
  | str (s : String)
  | nonString
deriving DecidableEq

/-- The character `<` (written via its code point to keep it apart from
Lean's own syntax). -/
def ltChar : Char := Char.ofNat 60

/-- The character `>`. -/
def gtChar : Char := Char.ofNat 62

/-- The double-quote character `"`. -/
def quoteChar : Char := Char.ofNat 34

/-- The single-quote character. -/
def aposChar : Char := Char.ofNat 39

/-- The whitespace class `\s` of the JavaScript regexes, restricted to its
ASCII members: space, tab, line feed, vertical tab, form feed, carriage
return. -/
def jsIsSpace (c : Char) : Bool :=
  c == ' ' || c == Char.ofNat 9 || c == Char.ofNat 10 ||
  c == Char.ofNat 11 || c == Char.ofNat 12 || c == Char.ofNat 13

/-- Removal of trailing whitespace, the right half of JavaScript
`String.prototype.trim`. -/
def trimRight : List Char → List Char
  | [] => []
  | c :: rest =>
    let r := trimRight rest
    if r = [] ∧ jsIsSpace c = true then [] else c :: r

/-- JavaScript `String.prototype.trim`: drop leading and trailing
whitespace. -/
def jsTrim (l : List Char) : List Char :=
  trimRight (l.dropWhile jsIsSpace)

/-- The replacement `.replace(/\s+/g, ' ')` from `normalizeString` in
`src/content.js`: every maximal run of whitespace becomes a single space. -/
def collapseWs (l : List Char) : List Char :=
  l.foldr
    (fun c acc =>
      if jsIsSpace c then (if acc.head? = some ' ' then acc else ' ' :: acc)
      else c :: acc)
    []

/-- `normalizeString` from `src/content.js`: guard against falsy or
non-string input, lowercase, trim, collapse internal whitespace.  Titles and
goals reaching it through `extractWords` are strings, so only the empty
string takes the falsy branch here. -/
def normalizeString (s : String) : String :=
  if s = "" then ""
  else ⟨collapseWs (jsTrim (s.data.map Char.toLower))⟩

/-- The delimiter class `[\s\.,!?;:()\[\]{}'"]` of the splitting regex in
`extractWords` from `src/content.js`. -/
def isDelimChar (c : Char) : Bool :=
  jsIsSpace c || c == '.' || c == ',' || c == '!' || c == '?' || c == ';' ||
  c == ':' || c == '(' || c == ')' || c == '[' || c == ']' ||
  c == Char.ofNat 123 || c == Char.ofNat 125 || c == aposChar || c == quoteChar

/-- Splitting on runs of delimiters while dropping empty pieces: the
`split(...).filter(word => word.length > 0)` step of `extractWords`.
`cur` holds the characters of the current word in reverse. -/
def splitTokensAux : List Char → List Char → List String
  | [], cur => if cur = [] then [] else [⟨cur.reverse⟩]
  | c :: rest, cur =>
    if isDelimChar c then
      if cur = [] then splitTokensAux rest []
      else ⟨cur.reverse⟩ :: splitTokensAux rest []
    else splitTokensAux rest (c :: cur)

/-- `extractWords` from `src/content.js`: normalize, split on whitespace and
punctuation, keep the non-empty words. -/
def extractWords (text : String) : List String :=
  if text = "" then []
  else splitTokensAux (normalizeString text).data []

/-- The `STOPWORDS` set of `src/content.js`. -/
def STOPWORDS : List String :=
  ["i", "want", "to", "see", "show", "me", "only", "about", "videos",
   "the", "a", "an", "and", "or", "but", "in", "on", "at", "for",
   "of", "with", "by", "from", "as", "is", "was", "are", "were",
   "be", "been", "being", "have", "has", "had", "do", "does", "did",
   "will", "would", "could", "should", "may", "might", "must", "can",
   "learn", "learning", "watch", "watching", "looking", "find", "search", "need"]

/-- The `GLOBAL_BLOCKLIST` set of `src/content.js`. -/
def GLOBAL_BLOCKLIST : Finset String :=
  {"shorts", "prank", "reaction", "gameplay", "gossip", "meme", "viral", "challenge"}

/-- `SCORE_RELEVANT` from `src/content.js`. -/
def SCORE_RELEVANT : Int := 20

/-- `SCORE_BLOCKED` from `src/content.js`. -/
def SCORE_BLOCKED : Int := -50

/-- `parseUserGoal` from `src/content.js`: falsy or non-string input gives
the empty set, otherwise the extracted words of length at least two that are
not stopwords, deduplicated into a set. -/
def parseUserGoal (goalString : JSVal) : Finset String :=
  match goalString with
  | .nonString => ∅
  | .str s =>
    if s = "" then ∅
    else
      ((extractWords s).filter
        (fun word => decide (2 ≤ word.length) && !(STOPWORDS.contains word))).toFinset

/-- The body of the `coreTopics.forEach` loop of `applyIntentOverride` in
`src/content.js`: delete `topic` from the modified blocklist when present
(the `removedCount` it also updates only feeds a debug log). -/
def condEraseTopic (topic : String) (mb : Finset String) : Finset String :=
  if topic ∈ mb then mb.erase topic else mb

theorem condEraseTopic_eq_erase (topic : String) (mb : Finset String) :
    condEraseTopic topic mb = mb.erase topic := by
  unfold condEraseTopic
  by_cases h : topic ∈ mb
  · simp [h]
  · simp [h, Finset.erase_eq_of_not_mem h]

instance : LeftCommutative condEraseTopic :=
  ⟨fun a b mb => by simp only [condEraseTopic_eq_erase, Finset.erase_right_comm]⟩

/-- `applyIntentOverride` from `src/content.js`: copy the blocklist
(`new Set(blocklist)`), then iterate over the user's core topics deleting
each one that is present in the copy.  The original `blocklist` argument is
never touched.  A JavaScript `Set` iterates in insertion order; the loop
body commutes with itself, so the iteration is modelled as a fold over the
underlying multiset of `coreTopics`. -/
def applyIntentOverride (coreTopics blocklist : Finset String) : Finset String :=
  let modifiedBlocklist := blocklist
  Multiset.foldr condEraseTopic modifiedBlocklist coreTopics.val

/-- `hasPositiveKeywordMatch` from `src/content.js`: false for a falsy title
or an empty topic set, otherwise true exactly when some title word is a core
topic. -/
def hasPositiveKeywordMatch (videoTitle : String) (coreTopics : Finset String) : Bool :=
  if videoTitle = "" ∨ coreTopics = ∅ then false
  else (extractWords videoTitle).any (fun word => decide (word ∈ coreTopics))

/-- The result object of `evaluateVideo`.  The two early-return branches of
the JavaScript function build an object without `positiveMatches` /
`negativeMatches` fields; those fields are therefore optional here. -/
structure EvalResult where
  shouldShow : Bool
  score : Int
  hasPositiveMatch : Bool
  positiveMatches : Option Nat
  negativeMatches : Option Nat
deriving DecidableEq, Repr

/-- The body of the scoring loop of `evaluateVideo`: one title word updates
the accumulated `(score, positiveMatches, negativeMatches)` triple, adding
`SCORE_RELEVANT` for a core-topic hit and `SCORE_BLOCKED` for a blocklist
hit (both tests run on every word). -/
def scoreStep (coreTopics blocklist : Finset String)
    (acc : Int × Nat × Nat) (word : String) : Int × Nat × Nat :=
  let acc1 :=
    if word ∈ coreTopics then (acc.1 + SCORE_RELEVANT, acc.2.1 + 1, acc.2.2)
    else acc
  if word ∈ blocklist then (acc1.1 + SCORE_BLOCKED, acc1.2.1, acc1.2.2 + 1)
  else acc1

/-- `evaluateVideo` from `src/content.js`.  A falsy or non-string title is
blocked outright (non-string titles take the same branch as the empty
string, so titles are modelled as strings); a title with no positive
keyword match is blocked without consulting the blocklist; otherwise the
scoring loop runs and the video shows exactly when the score is at least
zero. -/
def evaluateVideo (videoTitle : String) (coreTopics blocklist : Finset String) : EvalResult :=
  if videoTitle = "" then ⟨false, SCORE_BLOCKED, false, none, none⟩
  else
    let hasPositiveMatch := hasPositiveKeywordMatch videoTitle coreTopics
    if hasPositiveMatch = false then ⟨false, SCORE_BLOCKED, false, none, none⟩
    else
      let titleWords := extractWords videoTitle
      let acc := titleWords.foldl (scoreStep coreTopics blocklist) (0, 0, 0)
      ⟨decide (0 ≤ acc.1), acc.1, true, some acc.2.1, some acc.2.2⟩

/-- The scan underlying the global replacement `.replace(/<[^>]*>/g, '')` of
`sanitizeInput` in the popup script.  `pending` is `none` while scanning
ordinary text; after an opening `<` it holds (reversed) the characters of
the candidate match `<[^>]*` so far.  The greedy `[^>]*` cannot cross a `>`,
so a candidate match is closed by the first `>` after its `<`, and the whole
span is dropped; if the input ends with a candidate still open, no match
started at that `<`, nothing later can match either (there is no `>` left),
and the buffered text is emitted verbatim. -/
def removeTagsAux : Option (List Char) → List Char → List Char
  | none, [] => []
  | some pending, [] => pending.reverse
  | none, c :: rest =>
    if c = ltChar then removeTagsAux (some [c]) rest
    else c :: removeTagsAux none rest
  | some pending, c :: rest =>
    if c = gtChar then removeTagsAux none rest
    else removeTagsAux (some (c :: pending)) rest

/-- The replacement `.replace(/<[^>]*>/g, '')` of `sanitizeInput`: every
`<...>` span, running to the first `>` after its `<`, is removed. -/
def removeTags (l : List Char) : List Char :=
  removeTagsAux none l

/-- The replacement `.replace(/[<>\"']/g, '')` of `sanitizeInput`: drop
every `<`, `>`, `"` and single quote. -/
def removeDangerous (l : List Char) : List Char :=
  l.filter (fun c => !(c == ltChar || c == gtChar || c == quoteChar || c == aposChar))

/-- `sanitizeInput` from the popup script: falsy or non-string input gives
the empty string, otherwise HTML tags are stripped, the remaining dangerous
characters removed, and the result trimmed. -/
def sanitizeInput (input : JSVal) : String :=
  match input with
  | .nonString => ""
  | .str s =>
    if s = "" then ""
    else ⟨jsTrim (removeDangerous (removeTags s.data))⟩

/-- The classification outcome object delivered by the external zero-shot
classifier on success: labels ranked best first, with parallel scores.  The
scores' numeric values never influence the decision, so their element type
only needs to be inhabited; `Int` is used. -/
structure ClassificationResult where
  labels : List String
  scores : List Int
deriving DecidableEq, Repr

/-- JavaScript `String.prototype.toLowerCase`, over the ASCII range. -/
def jsToLowerCase (s : String) : String :=
  ⟨s.data.map Char.toLower⟩

/-- The success-path decision of the `classify` handler in
`src/background.js` (second iteration): `topLabel` is `result.labels[0]`;
the response's `shouldShow` is true exactly when that top label is a string
and equals the goal case-insensitively.  An absent label (`labels` empty or
missing) fails the `typeof topLabel === 'string'` test and yields false. -/
def classifyDecision (goal : String) (result : ClassificationResult) : Bool :=
  match result.labels.head? with
  | some topLabel => decide (jsToLowerCase topLabel = jsToLowerCase goal)
  | none => false

/-- The classifier model state of `src/background.js` (second iteration):
still loading, failed to load, or ready. -/
inductive ClassifierState where
  | loading
  | loadFailed
  | ready
deriving DecidableEq

/-- The outcome of the awaited external classifier call: a result object,
or a thrown error. -/
inductive CallOutcome where
  | success (result : ClassificationResult)
  | failure
deriving DecidableEq

/-- The `shouldShow` field of the response sent by the background handler
(the other response fields carry diagnostics only). -/
structure ClassifyResponse where
  shouldShow : Bool
deriving DecidableEq, Repr

/-- The `classify` message handler of `src/background.js` (second
iteration): while the model is loading, after a load failure, or when the
classifier call throws, it responds `shouldShow = true`; on success it
responds with the top-label comparison. -/
def handleClassifyMessage (state : ClassifierState) (goal : String)
    (outcome : CallOutcome) : ClassifyResponse :=
  match state with
  | .loading => ⟨true⟩
  | .loadFailed => ⟨true⟩
  | .ready =>
    match outcome with
    | .failure => ⟨true⟩
    | .success result => ⟨classifyDecision goal result⟩

/-- A response as seen by the `processVideo` callback in `src/content.js`
(second iteration): either it is falsy or lacks a `shouldShow` property
(malformed), or it carries a decision. -/
inductive RawResponse where
  | malformed
  | withDecision (shouldShow : Bool)
deriving DecidableEq

/-- The callback's reading of the response:
`response && response.hasOwnProperty('shouldShow') ? response.shouldShow : true`. -/
def interpretResponse : RawResponse → Bool
  | .malformed => true
  | .withDecision b => b

/-- The state of one video item during the AI-judgment phase of
`processVideo` in `src/content.js` (second iteration): the `isTimedOut`
flag, whether the 3000 ms timer is still armed (`clearTimeout` disarms it),
and the committed visual decision (`some true` = shown, `some false` =
hidden, `none` = still pending). -/
structure ItemState where
  isTimedOut : Bool
  timerActive : Bool
  decision : Option Bool
deriving DecidableEq, Repr

/-- The two events that can resolve a pending item: the 3000 ms timer
firing, or the classifier response arriving. -/
inductive RaceEvent where
  | timerFires
  | responseArrives (resp : RawResponse)
deriving DecidableEq

/-- One event step of `processVideo`'s race.  The timer callback (only
effective while the timer is armed) sets `isTimedOut`, shows the video and
marks it done.  The response callback first runs `clearTimeout(timer)`,
then returns immediately if `isTimedOut` is set, otherwise commits the
interpreted decision. -/
def stepItem (st : ItemState) (ev : RaceEvent) : ItemState :=
  match ev with
  | .timerFires =>
    if st.timerActive = true then
      { isTimedOut := true, timerActive := false, decision := some true }
    else st
  | .responseArrives resp =>
    let st1 := { st with timerActive := false }
    if st1.isTimedOut = true then st1
    else { st1 with decision := some (interpretResponse resp) }

/-- The state of an item when `processVideo` starts waiting on the
classifier: timer armed, not timed out, no decision yet. -/
def initialPendingState : ItemState :=
  { isTimedOut := false, timerActive := true, decision := none }

/-- `CLASS_CHECKED` from `src/content.js`. -/
def CLASS_CHECKED : String := "focus-checked"

/-- `CLASS_HIDDEN` from `src/content.js`. -/
def CLASS_HIDDEN : String := "focus-hidden"

/-- `CLASS_BLUR` from `src/content.js`. -/
def CLASS_BLUR : String := "focus-blur"

/-- A DOM element as the tag-and-hide architecture sees it: its set of CSS
classes. -/
structure DomElement where
  classes : Finset String
deriving DecidableEq

/-- `isElementProcessed` from `src/content.js`:
`element.classList.contains(CLASS_CHECKED)`. -/
def isElementProcessed (element : DomElement) : Bool :=
  decide (CLASS_CHECKED ∈ element.classes)

/-- `hideVideoElement` from `src/content.js`: add `CLASS_CHECKED`, add
`CLASS_HIDDEN`, remove `CLASS_BLUR`. -/
def hideVideoElement (element : DomElement) : DomElement :=
  ⟨(insert CLASS_HIDDEN (insert CLASS_CHECKED element.classes)).erase CLASS_BLUR⟩

/-- `showVideoElement` from `src/content.js`: add `CLASS_CHECKED`, remove
`CLASS_HIDDEN`, remove `CLASS_BLUR`. -/
def showVideoElement (element : DomElement) : DomElement :=
  ⟨((insert CLASS_CHECKED element.classes).erase CLASS_HIDDEN).erase CLASS_BLUR⟩

/-- `resetVideoElement` from `src/content.js`: remove all three focus
classes. -/
def resetVideoElement (element : DomElement) : DomElement :=
  ⟨((element.classes.erase CLASS_CHECKED).erase CLASS_HIDDEN).erase CLASS_BLUR⟩

/-- What one `filterVideos` iteration did to one element. -/
inductive ScanAction where
  | skipped
  | hiddenNoTitle
  | hiddenByScore (result : EvalResult)
  | shown (result : EvalResult)
deriving DecidableEq

/-- The per-element body of the `filterVideos` loop in `src/content.js`:
skip elements already carrying `CLASS_CHECKED` (before any title
extraction), hide elements whose title cannot be extracted, otherwise
evaluate and hide or show by the result. -/
def scanElementStep (element : DomElement) (titleText : Option String)
    (coreTopics activeBlocklist : Finset String) : DomElement × ScanAction :=
  if isElementProcessed element = true then (element, .skipped)
  else
    match titleText with
    | none => (hideVideoElement element, .hiddenNoTitle)
    | some t =>
      let evaluation := evaluateVideo t coreTopics activeBlocklist
      if evaluation.shouldShow = false then (hideVideoElement element, .hiddenByScore evaluation)
      else (showVideoElement element, .shown evaluation)

/-- What `filterVideos` decides to do once the stored goal is read: either
the pass-through branch that resets every element to visible, or per-video
evaluation with the given core topics and active blocklist. -/
inductive FilterOutcome where
  | passThroughReset
  | evaluated (result : EvalResult)
deriving DecidableEq, Repr

/-- The goal-dependent dispatch of `filterVideos` in `src/content.js`,
applied to one video title: a falsy, non-string or whitespace-only goal
resets all videos to visible; otherwise the goal is parsed and the intent
override applied to `GLOBAL_BLOCKLIST`; if no core topics survive parsing,
videos are again reset to visible; otherwise each video is evaluated. -/
def filterVideosDecision (userGoal : JSVal) (titleText : String) : FilterOutcome :=
  match userGoal with
  | .nonString => .passThroughReset
  | .str s =>
    if (⟨jsTrim s.data⟩ : String) = "" then .passThroughReset
    else
      let coreTopics := parseUserGoal (.str s)
      let activeBlocklist := applyIntentOverride coreTopics GLOBAL_BLOCKLIST
      if coreTopics = ∅ then .passThroughReset
      else .evaluated (evaluateVideo titleText coreTopics activeBlocklist)

/-! ### Helper lemmas about trimming and tag removal -/

theorem head?_dropWhile_false {p : Char → Bool} :
    ∀ (l : List Char) (a : Char), (l.dropWhile p).head? = some a → p a = false := by
  intro l
  induction l with
  | nil => intro a h; simp at h
  | cons c rest ih =>
    intro a h
    rw [List.dropWhile_cons] at h
    by_cases hc : p c = true
    · exact ih a (by simpa [hc] using h)
    · simp [hc] at h
      rw [← h]
      simpa using hc

theorem dropWhile_eq_self_of_head {p : Char → Bool} (l : List Char)
    (h : ∀ a, l.head? = some a → p a = false) : l.dropWhile p = l := by
  cases l with
  | nil => simp
  | cons c rest =>
    rw [List.dropWhile_cons]
    simp [h c rfl]

theorem trimRight_cons (c : Char) (rest : List Char) :
    trimRight (c :: rest) =
      if trimRight rest = [] ∧ jsIsSpace c = true then [] else c :: trimRight rest := rfl

theorem trimRight_head? (l : List Char) :
    trimRight l = [] ∨ (trimRight l).head? = l.head? := by
  cases l with
  | nil => exact Or.inl rfl
  | cons c rest =>
    rw [trimRight_cons]
    by_cases hc : trimRight rest = [] ∧ jsIsSpace c = true
    · simp [hc]
    · simp [hc]

theorem trimRight_idem : ∀ l : List Char, trimRight (trimRight l) = trimRight l := by
  intro l
  induction l with
  | nil => rfl
  | cons c rest ih =>
    rw [trimRight_cons]
    by_cases hc : trimRight rest = [] ∧ jsIsSpace c = true
    · rw [if_pos hc]
      rfl
    · rw [if_neg hc, trimRight_cons, ih, if_neg hc]

theorem jsTrim_idem (l : List Char) : jsTrim (jsTrim l) = jsTrim l := by
  unfold jsTrim
  rcases trimRight_head? (l.dropWhile jsIsSpace) with h | h
  · rw [h]
    rfl
  · rw [dropWhile_eq_self_of_head]
    · exact trimRight_idem _
    · intro a ha
      rw [h] at ha
      exact head?_dropWhile_false l a ha

theorem mem_trimRight {c : Char} : ∀ {l : List Char}, c ∈ trimRight l → c ∈ l := by
  intro l
  induction l with
  | nil => simp [trimRight]
  | cons d rest ih =>
    rw [trimRight_cons]
    by_cases hc : trimRight rest = [] ∧ jsIsSpace d = true
    · simp [hc]
    · simp only [if_neg hc, List.mem_cons]
      rintro (h | h)
      · exact Or.inl h
      · exact Or.inr (ih h)

theorem mem_jsTrim {c : Char} {l : List Char} (h : c ∈ jsTrim l) : c ∈ l := by
  unfold jsTrim at h
  have h1 := mem_trimRight h
  exact (List.dropWhile_sublist jsIsSpace).mem h1

theorem removeTagsAux_none_eq_self :
    ∀ l : List Char, (∀ c ∈ l, c ≠ ltChar) → removeTagsAux none l = l := by
  intro l
  induction l with
  | nil => intro _; rfl
  | cons c rest ih =>
    intro h
    unfold removeTagsAux
    rw [if_neg (h c (List.mem_cons_self c rest))]
    rw [ih (fun d hd => h d (List.mem_cons_of_mem c hd))]

/-- The character predicate kept by `removeDangerous`. -/
def isSafeChar (c : Char) : Bool :=
  !(c == ltChar || c == gtChar || c == quoteChar || c == aposChar)

theorem removeDangerous_eq_filter (l : List Char) :
    removeDangerous l = l.filter isSafeChar := rfl

theorem mem_sanitizeInput_safe {c : Char} {X : List Char}
    (h : c ∈ jsTrim (removeDangerous X)) : isSafeChar c = true := by
  have h1 := mem_jsTrim h
  rw [removeDangerous_eq_filter] at h1
  exact (List.mem_filter.mp h1).2

/-- Claim C10: `sanitizeInput` is idempotent; its output never contains
`<`, `>`, `"` or the single-quote character; every non-string input yields
the empty string. -/
theorem sanitizeInput_idem_safe :
    (∀ s : String, sanitizeInput (.str (sanitizeInput (.str s))) = sanitizeInput (.str s))
    ∧ (∀ v : JSVal, (sanitizeInput v).data.all isSafeChar = true)
    ∧ sanitizeInput .nonString = "" := by
  refine ⟨?_, ?_, rfl⟩
  · intro s
    by_cases hs : s = ""
    · simp [sanitizeInput, hs]
    · have hout : sanitizeInput (.str s) = ⟨jsTrim (removeDangerous (removeTags s.data))⟩ := by
        simp [sanitizeInput, hs]
      set X := removeDangerous (removeTags s.data) with hX
      by_cases hnil : jsTrim X = []
      · rw [hout, hnil]
        rfl
      · have hne : (⟨jsTrim X⟩ : String) ≠ "" := by
          intro heq
          apply hnil
          have hdata := congrArg String.data heq
          simpa using hdata
        rw [hout]
        show sanitizeInput (.str ⟨jsTrim X⟩) = (⟨jsTrim X⟩ : String)
        have hsafe : ∀ c ∈ jsTrim X, isSafeChar c = true := fun c hc =>
          mem_sanitizeInput_safe hc
        have h1 : removeTags (jsTrim X) = jsTrim X := by
          apply removeTagsAux_none_eq_self
          intro c hc
          have := hsafe c hc
          unfold isSafeChar at this
          simp only [Bool.not_eq_eq_eq_not, Bool.not_true, Bool.or_eq_false_iff] at this
          intro hlt
          rw [hlt] at this
          simp at this
        have h2 : removeDangerous (jsTrim X) = jsTrim X := by
          rw [removeDangerous_eq_filter]
          exact List.filter_eq_self.mpr hsafe
        simp only [sanitizeInput, if_neg hne]
        show (⟨jsTrim (removeDangerous (removeTags (jsTrim X)))⟩ : String) = ⟨jsTrim X⟩
        rw [h1, h2, jsTrim_idem]
  · intro v
    cases v with
    | nonString => rfl
    | str s =>
      by_cases hs : s = ""
      · simp [sanitizeInput, hs]
      · simp only [sanitizeInput, if_neg hs]
        rw [List.all_eq_true]
        intro c hc
        exact mem_sanitizeInput_safe hc

/-! ### Helper lemmas about matching and scoring -/

theorem hasPositiveKeywordMatch_eq_false (title : String) (coreTopics : Finset String)
    (h : ∀ w ∈ extractWords title, w ∉ coreTopics) :
    hasPositiveKeywordMatch title coreTopics = false := by
  unfold hasPositiveKeywordMatch
  by_cases hc : title = "" ∨ coreTopics = ∅
  · simp [hc]
  · rw [if_neg hc, List.any_eq_false]
    intro w hw
    simp [h w hw]

theorem hasPositiveKeywordMatch_eq_true (title : String) (coreTopics : Finset String)
    (h : ∃ w ∈ extractWords title, w ∈ coreTopics) :
    hasPositiveKeywordMatch title coreTopics = true := by
  obtain ⟨w, hw, hwc⟩ := h
  unfold hasPositiveKeywordMatch
  have ht : ¬(title = "" ∨ coreTopics = ∅) := by
    rintro (ht | hc)
    · rw [ht] at hw
      simp [extractWords] at hw
    · rw [hc] at hwc
      simp at hwc
  rw [if_neg ht, List.any_eq_true]
  exact ⟨w, hw, by simpa using hwc⟩

theorem scoreStep_eq (coreTopics blocklist : Finset String)
    (acc : Int × Nat × Nat) (w : String) :
    scoreStep coreTopics blocklist acc w =
      (acc.1 + (if w ∈ coreTopics then SCORE_RELEVANT else 0)
             + (if w ∈ blocklist then SCORE_BLOCKED else 0),
       acc.2.1 + (if w ∈ coreTopics then 1 else 0),
       acc.2.2 + (if w ∈ blocklist then 1 else 0)) := by
  unfold scoreStep
  by_cases hc : w ∈ coreTopics <;> by_cases hb : w ∈ blocklist <;> simp [hc, hb]

theorem scoreFold_spec (coreTopics blocklist : Finset String) :
    ∀ (ws : List String) (s : Int) (p n : Nat),
      ws.foldl (scoreStep coreTopics blocklist) (s, p, n)
        = (s + SCORE_RELEVANT * (ws.countP (fun w => decide (w ∈ coreTopics)) : Int)
             + SCORE_BLOCKED * (ws.countP (fun w => decide (w ∈ blocklist)) : Int),
           p + ws.countP (fun w => decide (w ∈ coreTopics)),
           n + ws.countP (fun w => decide (w ∈ blocklist))) := by
  intro ws
  induction ws with
  | nil => intro s p n; simp
  | cons w ws ih =>
    intro s p n
    rw [List.foldl_cons, scoreStep_eq, ih, List.countP_cons, List.countP_cons]
    by_cases hc : w ∈ coreTopics <;> by_cases hb : w ∈ blocklist <;>
      simp [hc, hb, SCORE_RELEVANT, SCORE_BLOCKED, Prod.ext_iff] <;>
      omega

/-- The single blocked result object of `evaluateVideo`. -/
theorem evaluateVideo_blocked (title : String) (coreTopics blocklist : Finset String)
    (h : ∀ w ∈ extractWords title, w ∉ coreTopics) :
    evaluateVideo title coreTopics blocklist = ⟨false, SCORE_BLOCKED, false, none, none⟩ := by
  unfold evaluateVideo
  by_cases ht : title = ""
  · simp [ht]
  · rw [if_neg ht]
    simp [hasPositiveKeywordMatch_eq_false title coreTopics h]

theorem mem_foldr_condErase (x : String) (s : Multiset String) :
    ∀ m : Finset String,
      x ∈ Multiset.foldr condEraseTopic m s ↔ x ∈ m ∧ x ∉ s := by
  induction s using Multiset.induction_on with
  | empty =>
    intro m
    rw [Multiset.foldr_zero]
    simp
  | cons a s ih =>
    intro m
    rw [Multiset.foldr_cons, condEraseTopic_eq_erase, Finset.mem_erase, ih,
      Multiset.mem_cons]
    constructor
    · rintro ⟨hxa, hm, hs⟩
      exact ⟨hm, by simp [hxa, hs]⟩
    · rintro ⟨hm, hcons⟩
      push_neg at hcons
      exact ⟨hcons.1, hm, hcons.2⟩

/-! ### Claim theorems -/

/-- Claim C1: for every title, core-topic set and active blocklist, if the
title's token set does not intersect the core topics then `evaluateVideo`
returns `{shouldShow := false, score := SCORE_BLOCKED,
hasPositiveMatch := false}` — a constant independent of the blocklist, so no
further scoring is attempted. -/
theorem evaluateVideo_strict_gate (title : String) (coreTopics blocklist : Finset String)
    (h : ∀ w ∈ extractWords title, w ∉ coreTopics) :
    evaluateVideo title coreTopics blocklist = ⟨false, SCORE_BLOCKED, false, none, none⟩ :=
  evaluateVideo_blocked title coreTopics blocklist h

theorem evaluateVideo_strict_gate_witness :
    evaluateVideo "Epic Gaming Fails Compilation" {"python"} GLOBAL_BLOCKLIST
      = ⟨false, SCORE_BLOCKED, false, none, none⟩ :=
  evaluateVideo_strict_gate "Epic Gaming Fails Compilation" {"python"} GLOBAL_BLOCKLIST
    (by decide)

/-- Claim C2: for every title whose token set intersects the core topics,
the score of `evaluateVideo` is `SCORE_RELEVANT` times the number of title
tokens found in the core topics plus `SCORE_BLOCKED` times the number of
title tokens found in the active blocklist, counting each token occurrence,
and `shouldShow` holds exactly when the score is at least zero. -/
theorem evaluateVideo_scoring (title : String) (coreTopics blocklist : Finset String)
    (h : ∃ w ∈ extractWords title, w ∈ coreTopics) :
    (evaluateVideo title coreTopics blocklist).score
        = SCORE_RELEVANT * ((extractWords title).countP (fun w => decide (w ∈ coreTopics)) : Int)
          + SCORE_BLOCKED * ((extractWords title).countP (fun w => decide (w ∈ blocklist)) : Int)
      ∧ ((evaluateVideo title coreTopics blocklist).shouldShow = true
          ↔ 0 ≤ (evaluateVideo title coreTopics blocklist).score) := by
  have ht : title ≠ "" := by
    obtain ⟨w, hw, _⟩ := h
    intro he
    rw [he] at hw
    simp [extractWords] at hw
  have hm := hasPositiveKeywordMatch_eq_true title coreTopics h
  have hev : evaluateVideo title coreTopics blocklist =
      ⟨decide (0 ≤ (0 + SCORE_RELEVANT * ((extractWords title).countP (fun w => decide (w ∈ coreTopics)) : Int)
          + SCORE_BLOCKED * ((extractWords title).countP (fun w => decide (w ∈ blocklist)) : Int))),
        0 + SCORE_RELEVANT * ((extractWords title).countP (fun w => decide (w ∈ coreTopics)) : Int)
          + SCORE_BLOCKED * ((extractWords title).countP (fun w => decide (w ∈ blocklist)) : Int),
        true,
        some (0 + (extractWords title).countP (fun w => decide (w ∈ coreTopics))),
        some (0 + (extractWords title).countP (fun w => decide (w ∈ blocklist)))⟩ := by
    unfold evaluateVideo
    rw [if_neg ht]
    simp only [hm, Bool.true_eq_false, if_false]
    rw [scoreFold_spec]
  rw [hev]
  exact ⟨by simp, by simp⟩

theorem evaluateVideo_scoring_witness :
    (evaluateVideo "python shorts" {"python"} GLOBAL_BLOCKLIST).score
        = SCORE_RELEVANT * (((extractWords "python shorts").countP
              (fun w => decide (w ∈ ({"python"} : Finset String)))) : Int)
          + SCORE_BLOCKED * (((extractWords "python shorts").countP
              (fun w => decide (w ∈ GLOBAL_BLOCKLIST))) : Int)
      ∧ ((evaluateVideo "python shorts" {"python"} GLOBAL_BLOCKLIST).shouldShow = true
          ↔ 0 ≤ (evaluateVideo "python shorts" {"python"} GLOBAL_BLOCKLIST).score) :=
  evaluateVideo_scoring "python shorts" {"python"} GLOBAL_BLOCKLIST (by decide)

/-- Claim C3: `applyIntentOverride` returns exactly the set difference
`base \ core`; the returned active blocklist is a subset of the base
blocklist and disjoint from the core topics.  The embedding models the
`new Set(blocklist)` copy the JavaScript makes, so the `base` argument
itself is left untouched (the fold only ever builds a new set). -/
theorem applyIntentOverride_sdiff :
    ∀ coreTopics base : Finset String,
      applyIntentOverride coreTopics base = base \ coreTopics
      ∧ applyIntentOverride coreTopics base ⊆ base
      ∧ applyIntentOverride coreTopics base ∩ coreTopics = ∅ := by
  intro core base
  have hmain : applyIntentOverride core base = base \ core := by
    ext x
    unfold applyIntentOverride
    rw [mem_foldr_condErase]
    simp [Finset.mem_sdiff]
  refine ⟨hmain, ?_, ?_⟩
  · rw [hmain]
    exact Finset.sdiff_subset
  · rw [hmain]
    ext x
    simp [Finset.mem_sdiff]

/-- Claim C9: `evaluateVideo` itself blanket-blocks every title when the
core-topic set is empty; the pass-through behaviour for empty goals exists
only because `filterVideos` takes its reset branch (never reaching
`evaluateVideo`) whenever parsing yields no core topics. -/
theorem evaluateVideo_empty_core :
    (∀ (title : String) (blocklist : Finset String),
        evaluateVideo title ∅ blocklist = ⟨false, SCORE_BLOCKED, false, none, none⟩)
    ∧ (∀ (userGoal : JSVal) (titleText : String),
        parseUserGoal userGoal = ∅ →
          filterVideosDecision userGoal titleText = .passThroughReset) := by
  constructor
  · intro title blocklist
    exact evaluateVideo_blocked title ∅ blocklist (by simp)
  · intro userGoal titleText hparse
    cases userGoal with
    | nonString => rfl
    | str s =>
      by_cases htrim : (⟨jsTrim s.data⟩ : String) = ""
      · simp [filterVideosDecision, htrim]
      · simp [filterVideosDecision, htrim, hparse]

theorem evaluateVideo_empty_core_witness :
    evaluateVideo "Python Tutorial for Beginners" ∅ GLOBAL_BLOCKLIST
      = ⟨false, SCORE_BLOCKED, false, none, none⟩
    ∧ filterVideosDecision (.str "learn") "Python Tutorial for Beginners" = .passThroughReset :=
  ⟨evaluateVideo_empty_core.1 "Python Tutorial for Beginners" GLOBAL_BLOCKLIST,
   evaluateVideo_empty_core.2 (.str "learn") "Python Tutorial for Beginners" (by decide)⟩

/-- Claim C4: on classifier success the adapter's response is
`shouldShow = true` exactly when the top-ranked label case-insensitively
equals the user's goal label; no confidence threshold is applied — the
decision is invariant under arbitrary changes to the scores and to every
label after the first. -/
theorem classifyDecision_top_label :
    ∀ (goal : String) (result : ClassificationResult),
      handleClassifyMessage .ready goal (.success result) = ⟨classifyDecision goal result⟩
      ∧ (classifyDecision goal result = true
          ↔ ∃ topLabel, result.labels.head? = some topLabel
              ∧ jsToLowerCase topLabel = jsToLowerCase goal)
      ∧ (∀ (top : String) (restA restB : List String) (scoresA scoresB : List Int),
          classifyDecision goal ⟨top :: restA, scoresA⟩
            = classifyDecision goal ⟨top :: restB, scoresB⟩) := by
  intro goal result
  refine ⟨rfl, ?_, fun top ra rb sa sb => rfl⟩
  unfold classifyDecision
  cases h : result.labels.head? with
  | none => simp
  | some topLabel => simp

/-- Claim C5: for both interleavings of the one 3000 ms timeout and the one
classifier response of an item, the decision is committed exactly once by
the first event and left untouched by the second: a response after the
timeout is discarded wholesale (the state, hence the fail-safe
`show = true` decision, is unchanged), and a timeout after the response is
a no-op. -/
theorem processVideo_exactly_once :
    ∀ resp : RawResponse,
      (stepItem initialPendingState .timerFires).decision = some true
      ∧ stepItem (stepItem initialPendingState .timerFires) (.responseArrives resp)
          = stepItem initialPendingState .timerFires
      ∧ (stepItem initialPendingState (.responseArrives resp)).decision
          = some (interpretResponse resp)
      ∧ stepItem (stepItem initialPendingState (.responseArrives resp)) .timerFires
          = stepItem initialPendingState (.responseArrives resp) := by
  intro resp
  cases resp with
  | malformed => exact ⟨rfl, rfl, rfl, rfl⟩
  | withDecision b => exact ⟨rfl, rfl, rfl, rfl⟩

/-- Claim C6: every failure path resolves the item to `show = true`: a
model still loading, a failed model load, a classifier call that throws, a
malformed response object, and the 3000 ms timeout. -/
theorem fail_safe_default :
    ∀ (goal : String) (outcome : CallOutcome),
      handleClassifyMessage .loading goal outcome = ⟨true⟩
      ∧ handleClassifyMessage .loadFailed goal outcome = ⟨true⟩
      ∧ handleClassifyMessage .ready goal .failure = ⟨true⟩
      ∧ interpretResponse .malformed = true
      ∧ (stepItem initialPendingState .timerFires).decision = some true := by
  intro goal outcome
  exact ⟨rfl, rfl, rfl, rfl, rfl⟩

/-- Claim C7: the set returned by `parseUserGoal` never contains a token
shorter than two characters or a stopword, and non-string or empty input
yields the empty set. -/
theorem parseUserGoal_postconditions :
    (∀ goalString : JSVal,
        (parseUserGoal goalString).filter
          (fun w => w.length < 2 ∨ STOPWORDS.contains w = true) = ∅)
    ∧ parseUserGoal .nonString = ∅
    ∧ parseUserGoal (.str "") = ∅ := by
  refine ⟨?_, rfl, by simp [parseUserGoal]⟩
  intro g
  cases g with
  | nonString => simp [parseUserGoal]
  | str s =>
    by_cases hs : s = ""
    · simp [parseUserGoal, hs]
    · ext w
      simp only [parseUserGoal, if_neg hs, Finset.mem_filter, List.mem_toFinset,
        List.mem_filter, Finset.not_mem_empty, iff_false]
      rintro ⟨⟨hmem, hp⟩, hbad⟩
      rw [Bool.and_eq_true, decide_eq_true_iff, Bool.not_eq_true'] at hp
      rcases hbad with hlen | hcontains
      · omega
      · rw [hcontains] at hp
        exact absurd hp.2 (by simp)

/-- Claim C8: applying a show or hide decision tags the element with
`CLASS_CHECKED`; a later scan cycle returns such an element unchanged with
action `skipped`, for every title and every topic/blocklist pair, so no
title extraction or evaluation happens for it; only `resetVideoElement`
clears the marker. -/
theorem decided_items_skipped :
    ∀ (element : DomElement) (titleText : Option String)
      (coreTopics activeBlocklist : Finset String),
      isElementProcessed (hideVideoElement element) = true
      ∧ isElementProcessed (showVideoElement element) = true
      ∧ scanElementStep (hideVideoElement element) titleText coreTopics activeBlocklist
          = (hideVideoElement element, .skipped)
      ∧ scanElementStep (showVideoElement element) titleText coreTopics activeBlocklist
          = (showVideoElement element, .skipped)
      ∧ isElementProcessed (resetVideoElement element) = false := by
  intro e titleText coreTopics activeBlocklist
  have hhide : isElementProcessed (hideVideoElement e) = true := by
    simp [isElementProcessed, hideVideoElement, CLASS_CHECKED, CLASS_HIDDEN, CLASS_BLUR]
  have hshow : isElementProcessed (showVideoElement e) = true := by
    simp [isElementProcessed, showVideoElement, CLASS_CHECKED, CLASS_HIDDEN, CLASS_BLUR]
  have hreset : isElementProcessed (resetVideoElement e) = false := by
    simp [isElementProcessed, resetVideoElement]
  refine ⟨hhide, hshow, ?_, ?_, hreset⟩
  · simp [scanElementStep, hhide]
  · simp [scanElementStep, hshow]
